import Mathlib

/-!
# httpmock: registration of expected calls and the exhaustion check

A shallow embedding of `httpmock.go`: the nine `CallOption` constructors,
`Client.WithRequest`, `Client.AssertExpectations` and `New`, followed by the
properties of the registration phase and of the exhaustion check.

Conventions of the embedding.

* A Go `string` is a Lean `String`; a Go `[]string` is a `List String` and a
  `[]byte` is a `List UInt8` (a nil slice and an empty slice are identified,
  the source never tells them apart).
* A Go map that the source compares with `nil` is an `Option` of a finite
  map: `none` is the nil map, `some m` an allocated map.
* A Go `error` is an `Option GoError`: `none` is the nil error.
* A method with a pointer receiver is a function from the state before the
  call to the state after it.
-/

namespace httpmock

/-! ## Data model -/

/-- A non-nil Go `error` value, identified by its message. -/
structure GoError where
  msg : String
deriving DecidableEq, Repr

/-- The Go type `map[string][]string` (also `http.Header`, `url.Values`),
once allocated: a finite map from names to value lists. -/
abbrev StringsMap := Finmap (fun _ : String => List String)

/-- Modelled from the spec: the declaration of the struct `request` is not in
`httpmock.go`; its fields are the ones section 3 of the specification lists
for an Expectation, with the Go types under which `httpmock.go` assigns them
(`returnError error`, `returnStatus int`, `returnBody string`,
`expectedBody string`, `expectedJSON []byte`,
`expectedHeaders map[string][]string`, `expectedQueryParams url.Values`). -/
structure request where
  method : String
  route : String
  expectedBody : String
  expectedJSON : List UInt8
  expectedHeaders : Option StringsMap
  expectedQueryParams : Option StringsMap
  returnError : Option GoError
  returnStatus : Int
  returnBody : String
deriving DecidableEq

/-- The Go type `CallOption`, `func(*request)`: the request after the call as
a function of the request before it. -/
abbrev CallOption := request → request

/-- Modelled from the spec: the declaration of the struct `transport` is not in
`httpmock.go`; `requests` is the queue `items` and `index` the `cursor` of
section 3 of the specification, as `New` and `AssertExpectations` use them.
The field `t` holds the address of the `testing.T` given to `New`. -/
structure transport where
  t : Nat
  requests : List request
  index : Int
deriving DecidableEq

/-- The struct `Client`. The embedded `http.Client` only holds a second pointer
to the same transport, so the client state is the transport state. -/
structure Client where
  transport : transport
deriving DecidableEq

/-- What the source uses of a `testing.T`: whether the test has been marked as
failed, and the messages logged so far, oldest first. -/
structure TestingT where
  failed : Bool
  output : List String
deriving DecidableEq, Repr

/-- The call `t.Errorf(msg)`: logs the message and marks the test as failed. -/
def TestingT.Errorf (t : TestingT) (msg : String) : TestingT :=
  { failed := true, output := t.output ++ [msg] }

/-! ## The option constructors -/

/-- The constructor `ReturnError(err)`. -/
def ReturnError (err : Option GoError) : CallOption :=
  fun r => { r with returnError := err }

/-- The constructor `ReturnStatus(status)`. -/
def ReturnStatus (status : Int) : CallOption :=
  fun r => { r with returnStatus := status }

/-- The constructor `ReturnBodyRaw(body)`. -/
def ReturnBodyRaw (body : String) : CallOption :=
  fun r => { r with returnBody := body }

/-- The constructor `ReturnBodyFromObject(object)`. The serializer `json.Marshal` of the Go
standard library is the argument `marshal`; when it fails its byte result is
nil, and `string(nil)` is the empty string. The serializer runs when the
option is applied, not when it is built. -/
def ReturnBodyFromObject {Obj : Type} (marshal : Obj → Except GoError String)
    (object : Obj) : CallOption :=
  fun r =>
    let body := match marshal object with
      | .ok b => b
      | .error _ => ""
    { r with returnBody := body }

/-- The constructor `ExpectBody(expectedBody)`. -/
def ExpectBody (expectedBody : String) : CallOption :=
  fun r => { r with expectedBody := expectedBody }

/-- The constructor `ExpectJSON(expectedJSON)`: stores the bytes of the string. -/
def ExpectJSON (expectedJSON : String) : CallOption :=
  fun r => { r with expectedJSON := expectedJSON.toUTF8.data.toList }

/-- The two statements `if m == nil { m = make(...) }; m[name] = values`. -/
def setEntry (m : Option StringsMap) (name : String) (values : List String) :
    Option StringsMap :=
  let m1 : StringsMap := match m with
    | none => ∅
    | some m0 => m0
  some (m1.insert name values)

/-- The constructor `ExpectHeader(name, values)`. -/
def ExpectHeader (name : String) (values : List String) : CallOption :=
  fun c => { c with expectedHeaders := setEntry c.expectedHeaders name values }

/-- The constructor `ExpectQueryParamValues(name, values)`. -/
def ExpectQueryParamValues (name : String) (values : List String) : CallOption :=
  fun c => { c with expectedQueryParams := setEntry c.expectedQueryParams name values }

/-- The constructor `ExpectQueryParam(name, value)`. -/
def ExpectQueryParam (name value : String) : CallOption :=
  fun c => { c with expectedQueryParams := setEntry c.expectedQueryParams name [value] }

/-! ## The client -/

/-- The loop `for _, option := range options { option(&req) }`. -/
def applyOptions : List CallOption → request → request
  | [], req => req
  | option :: rest, req => applyOptions rest (option req)

/-- The method `Client.WithRequest`. The function `newMockRequest` is declared
outside `httpmock.go` and is an argument; the request it returns is a fresh
value, whose maps (if any) are shared with no item of the queue. -/
def WithRequest (newMockRequest : String → String → request) (c : Client)
    (method route : String) (options : List CallOption) : Client :=
  let req := applyOptions options (newMockRequest method route)
  { c with transport := { c.transport with requests := c.transport.requests ++ [req] } }

/-- The method `Client.AssertExpectations`: the client and the `testing.T` after the call. -/
def AssertExpectations (c : Client) (t : TestingT) : Client × TestingT :=
  if c.transport.index < (c.transport.requests.length : Int) then
    (c, t.Errorf "httpmock should have more requests")
  else
    (c, t)

/-- The function `New(t)`: a transport with an allocated, empty queue; `index` keeps the
zero value of `int`. -/
def New (t : Nat) : Client :=
  { transport := { t := t, requests := [], index := 0 } }

/-! ## Descriptions of option calls

The properties below quantify over "an option built by one of the nine
constructors". Such an option is described by the constructor and its
arguments; `OptionCall.build` is the option itself. -/

/-- The fields of `request` that an option constructor assigns. -/
inductive Field where
  | returnError
  | returnStatus
  | returnBody
  | expectedBody
  | expectedJSON
  | expectedHeaders
  | expectedQueryParams
deriving DecidableEq, Repr

/-- A call of one of the nine option constructors, with its arguments. -/
inductive OptionCall (Obj : Type) where
  | returnError (err : Option GoError)
  | returnStatus (status : Int)
  | returnBodyRaw (body : String)
  | returnBodyFromObject (object : Obj)
  | expectBody (expectedBody : String)
  | expectJSON (expectedJSON : String)
  | expectHeader (name : String) (values : List String)
  | expectQueryParamValues (name : String) (values : List String)
  | expectQueryParam (name value : String)
deriving DecidableEq

/-- The option that the described constructor call returns. -/
def OptionCall.build {Obj : Type} (marshal : Obj → Except GoError String) :
    OptionCall Obj → CallOption
  | .returnError err => ReturnError err
  | .returnStatus status => ReturnStatus status
  | .returnBodyRaw body => ReturnBodyRaw body
  | .returnBodyFromObject object => ReturnBodyFromObject marshal object
  | .expectBody expectedBody => ExpectBody expectedBody
  | .expectJSON expectedJSON => ExpectJSON expectedJSON
  | .expectHeader name values => ExpectHeader name values
  | .expectQueryParamValues name values => ExpectQueryParamValues name values
  | .expectQueryParam name value => ExpectQueryParam name value

/-- The field that the body of the constructor assigns. -/
def OptionCall.field {Obj : Type} : OptionCall Obj → Field
  | .returnError _ => .returnError
  | .returnStatus _ => .returnStatus
  | .returnBodyRaw _ => .returnBody
  | .returnBodyFromObject _ => .returnBody
  | .expectBody _ => .expectedBody
  | .expectJSON _ => .expectedJSON
  | .expectHeader _ _ => .expectedHeaders
  | .expectQueryParamValues _ _ => .expectedQueryParams
  | .expectQueryParam _ _ => .expectedQueryParams

/-- The map key that the constructor assigns, for the constructors that write
one entry of a map field. -/
def OptionCall.entryName {Obj : Type} : OptionCall Obj → Option String
  | .expectHeader name _ => some name
  | .expectQueryParamValues name _ => some name
  | .expectQueryParam name _ => some name
  | _ => none

/-- Two option calls write different places: different fields, or different
names within the same map field. -/
def OptionCall.independent {Obj : Type} (o₁ o₂ : OptionCall Obj) : Prop :=
  o₁.field ≠ o₂.field ∨ o₁.entryName ≠ o₂.entryName

instance {Obj : Type} (o₁ o₂ : OptionCall Obj) : Decidable (o₁.independent o₂) := by
  unfold OptionCall.independent
  exact inferInstance

/-! ## Sample values -/

/-- A serializer on a two-element object type: one object serializes, the
other does not. -/
def sampleMarshal : Bool → Except GoError String
  | true => .ok "\x7b\x7d"
  | false => .error ⟨"json: unsupported type"⟩

/-- A constructor of fresh requests: method and route set, every other field at
its zero value. -/
def sampleNewMockRequest (method route : String) : request :=
  { method := method, route := route, expectedBody := "", expectedJSON := [],
    expectedHeaders := none, expectedQueryParams := none, returnError := none,
    returnStatus := 0, returnBody := "" }

/-- A request with every field set. -/
def sampleRequest : request :=
  { method := "POST", route := "/users", expectedBody := "a", expectedJSON := [49],
    expectedHeaders := some ∅, expectedQueryParams := none,
    returnError := some ⟨"boom"⟩, returnStatus := 201, returnBody := "b" }

/-! ## Runs of calls and observations -/

/-- The number of registered expectations that no call has consumed,
`len(requests) - index`. -/
def unconsumed (c : Client) : Int :=
  (c.transport.requests.length : Int) - c.transport.index

/-- The messages that a call logged: the output after it without the output
before it. -/
def reported (before after : TestingT) : List String :=
  after.output.drop before.output.length

/-- The state after `n` calls of `AssertExpectations` in a row. -/
def assertRepeatedly : Nat → Client → TestingT → Client × TestingT
  | 0, c, t => (c, t)
  | n + 1, c, t =>
    let s := AssertExpectations c t
    assertRepeatedly n s.1 s.2

/-- The arguments of one `WithRequest` call: method, route, options. -/
structure Registration where
  method : String
  route : String
  options : List CallOption

/-- The chain `c.WithRequest(...).WithRequest(...)...`, one call per element of
the list, first element first. -/
def registerAll (newMockRequest : String → String → request) :
    Client → List Registration → Client
  | c, [] => c
  | c, call :: rest =>
    registerAll newMockRequest
      (WithRequest newMockRequest c call.method call.route call.options) rest

/-- The queue invariant `0 <= cursor <= len(items)`. -/
def queueInvariant (c : Client) : Prop :=
  0 ≤ c.transport.index ∧ c.transport.index ≤ (c.transport.requests.length : Int)

instance (c : Client) : Decidable (queueInvariant c) := by
  unfold queueInvariant
  exact inferInstance

/-- A client with three registered expectations of which two are consumed. -/
def sampleClient : Client :=
  { transport :=
      { t := 0
        requests := [sampleNewMockRequest "GET" "/a", sampleNewMockRequest "GET" "/b",
          sampleNewMockRequest "GET" "/c"]
        index := 2 } }

/-- A client with three registered expectations of which none is consumed. -/
def sampleClientFresh : Client :=
  { transport := { sampleClient.transport with index := 0 } }

/-- A `testing.T` on which nothing was reported yet. -/
def sampleT : TestingT :=
  { failed := false, output := [] }

/-- The Go index expression `v, ok := m[name]`: the value list stored under
the name, if there is one; a nil map holds no entry. -/
def getEntry (m : Option StringsMap) (name : String) : Option (List String) :=
  match m with
  | none => none
  | some m0 => m0.lookup name

/-! ## Registration -/

theorem applyOptions_eq_foldl (options : List CallOption) (req : request) :
    applyOptions options req = options.foldl (fun r option => option r) req := by
  induction options generalizing req with
  | nil => rfl
  | cons option rest ih => simp [applyOptions, ih]

/-- C1: `WithRequest` yields a state whose queue is the old queue followed by
exactly one new expectation, the result of applying the options left to right
to `newMockRequest method route`; the cursor, the reporting handle and every
previously registered expectation are unchanged. -/
theorem withRequest_appends_one (newMockRequest : String → String → request)
    (c : Client) (method route : String) (options : List CallOption) :
    (WithRequest newMockRequest c method route options).transport.requests
        = c.transport.requests
          ++ [options.foldl (fun r option => option r) (newMockRequest method route)]
      ∧ (WithRequest newMockRequest c method route options).transport.requests.length
        = c.transport.requests.length + 1
      ∧ (∀ i, i < c.transport.requests.length →
          (WithRequest newMockRequest c method route options).transport.requests[i]?
            = c.transport.requests[i]?)
      ∧ (WithRequest newMockRequest c method route options).transport.index
        = c.transport.index
      ∧ (WithRequest newMockRequest c method route options).transport.t
        = c.transport.t := by
  refine ⟨?_, ?_, ?_, rfl, rfl⟩
  · simp [WithRequest, applyOptions_eq_foldl]
  · simp [WithRequest]
  · intro i hi
    simp [WithRequest, List.getElem?_append_left hi]

/-! ## Frame of each option -/

/-- C2: applying an option built by one of the nine constructors leaves the
method, the route and every field other than the constructor's designated
field equal. -/
theorem option_changes_only_its_field {Obj : Type}
    (marshal : Obj → Except GoError String) (o : OptionCall Obj) (r : request) :
    (o.build marshal r).method = r.method
      ∧ (o.build marshal r).route = r.route
      ∧ (o.field ≠ Field.returnError →
          (o.build marshal r).returnError = r.returnError)
      ∧ (o.field ≠ Field.returnStatus →
          (o.build marshal r).returnStatus = r.returnStatus)
      ∧ (o.field ≠ Field.returnBody →
          (o.build marshal r).returnBody = r.returnBody)
      ∧ (o.field ≠ Field.expectedBody →
          (o.build marshal r).expectedBody = r.expectedBody)
      ∧ (o.field ≠ Field.expectedJSON →
          (o.build marshal r).expectedJSON = r.expectedJSON)
      ∧ (o.field ≠ Field.expectedHeaders →
          (o.build marshal r).expectedHeaders = r.expectedHeaders)
      ∧ (o.field ≠ Field.expectedQueryParams →
          (o.build marshal r).expectedQueryParams = r.expectedQueryParams) := by
  cases o <;>
    simp [OptionCall.build, OptionCall.field, ReturnError, ReturnStatus, ReturnBodyRaw,
      ReturnBodyFromObject, ExpectBody, ExpectJSON, ExpectHeader, ExpectQueryParamValues,
      ExpectQueryParam]

/-- C2 at a concrete input: `ExpectHeader` on a request with every field set. -/
theorem option_changes_only_its_field_witness :
    (ExpectHeader "X-Id" ["7"] sampleRequest).method = "POST"
      ∧ (ExpectHeader "X-Id" ["7"] sampleRequest).returnError = some ⟨"boom"⟩
      ∧ (ExpectHeader "X-Id" ["7"] sampleRequest).expectedQueryParams = none :=
  have h := option_changes_only_its_field sampleMarshal
    (OptionCall.expectHeader "X-Id" ["7"]) sampleRequest
  ⟨h.1, h.2.2.1 (by decide), h.2.2.2.2.2.2.2.2 (by decide)⟩

/-! ## Last write wins -/

/-- C3: for each scalar setter, applying it with `v1` and then with `v2` gives
the same expectation as applying it with `v2` alone, applying the same option
twice gives the same expectation as applying it once, and `ReturnBodyRaw`
applied after `ReturnBodyFromObject` leaves exactly the raw body. -/
theorem scalar_setters_last_write_wins {Obj : Type}
    (marshal : Obj → Except GoError String) (r : request) :
    (∀ v1 v2, ReturnError v2 (ReturnError v1 r) = ReturnError v2 r)
      ∧ (∀ v1 v2, ReturnStatus v2 (ReturnStatus v1 r) = ReturnStatus v2 r)
      ∧ (∀ v1 v2, ReturnBodyRaw v2 (ReturnBodyRaw v1 r) = ReturnBodyRaw v2 r)
      ∧ (∀ v1 v2, ExpectBody v2 (ExpectBody v1 r) = ExpectBody v2 r)
      ∧ (∀ v1 v2, ExpectJSON v2 (ExpectJSON v1 r) = ExpectJSON v2 r)
      ∧ (∀ v, ReturnError v (ReturnError v r) = ReturnError v r)
      ∧ (∀ v, ReturnStatus v (ReturnStatus v r) = ReturnStatus v r)
      ∧ (∀ v, ReturnBodyRaw v (ReturnBodyRaw v r) = ReturnBodyRaw v r)
      ∧ (∀ v, ExpectBody v (ExpectBody v r) = ExpectBody v r)
      ∧ (∀ v, ExpectJSON v (ExpectJSON v r) = ExpectJSON v r)
      ∧ (∀ object body,
          ReturnBodyRaw body (ReturnBodyFromObject marshal object r) = ReturnBodyRaw body r
            ∧ (ReturnBodyRaw body (ReturnBodyFromObject marshal object r)).returnBody
              = body) := by
  refine ⟨?_, ?_, ?_, ?_, ?_, ?_, ?_, ?_, ?_, ?_, ?_⟩ <;> intros <;>
    simp [ReturnError, ReturnStatus, ReturnBodyRaw, ReturnBodyFromObject, ExpectBody,
      ExpectJSON]

/-! ## Order of the options -/

theorem setEntry_comm (m : Option StringsMap) (a b : String) (va vb : List String)
    (h : a ≠ b) :
    setEntry (setEntry m a va) b vb = setEntry (setEntry m b vb) a va := by
  cases m <;> simp [setEntry, Finmap.insert_insert_of_ne _ h]

theorem build_comm_of_independent {Obj : Type} (marshal : Obj → Except GoError String)
    (o₁ o₂ : OptionCall Obj) (h : o₁.independent o₂) (r : request) :
    o₂.build marshal (o₁.build marshal r) = o₁.build marshal (o₂.build marshal r) := by
  cases o₁ <;> cases o₂ <;>
    simp [OptionCall.independent, OptionCall.field, OptionCall.entryName] at h <;>
    simp [OptionCall.build, ReturnError, ReturnStatus, ReturnBodyRaw,
      ReturnBodyFromObject, ExpectBody, ExpectJSON, ExpectHeader, ExpectQueryParamValues,
      ExpectQueryParam] <;>
    exact setEntry_comm _ _ _ _ _ h

theorem independent_symm {Obj : Type} (o₁ o₂ : OptionCall Obj)
    (h : o₁.independent o₂) : o₂.independent o₁ := by
  rcases h with h | h
  · exact Or.inl (Ne.symm h)
  · exact Or.inr (Ne.symm h)

theorem applyOptions_perm {Obj : Type} (marshal : Obj → Except GoError String)
    (l l' : List (OptionCall Obj)) (hl : l.Pairwise OptionCall.independent)
    (hp : l.Perm l') (req : request) :
    applyOptions (l.map (OptionCall.build marshal)) req
      = applyOptions (l'.map (OptionCall.build marshal)) req := by
  rw [applyOptions_eq_foldl, applyOptions_eq_foldl, List.foldl_map, List.foldl_map]
  refine hp.foldl_eq' ?_ req
  intro x hx y hy z
  by_cases hxy : x = y
  · subst hxy
    rfl
  · exact build_comm_of_independent marshal x y
      (hl.forall (fun a b => independent_symm a b) hx hy hxy) z

/-- C4: two options whose constructors target different fields commute on
every expectation; and `WithRequest` called with a list of options in which no
two write the same field (or the same header or query-parameter name) appends
the same expectation as with any permutation of that list. -/
theorem options_order_insensitive {Obj : Type}
    (marshal : Obj → Except GoError String) :
    (∀ (o₁ o₂ : OptionCall Obj) (r : request), o₁.field ≠ o₂.field →
        o₂.build marshal (o₁.build marshal r) = o₁.build marshal (o₂.build marshal r))
      ∧ (∀ (newMockRequest : String → String → request) (c : Client)
          (method route : String) (l l' : List (OptionCall Obj)),
          l.Pairwise OptionCall.independent → l.Perm l' →
          WithRequest newMockRequest c method route (l.map (OptionCall.build marshal))
            = WithRequest newMockRequest c method route
                (l'.map (OptionCall.build marshal))) := by
  constructor
  · intro o₁ o₂ r h
    exact build_comm_of_independent marshal o₁ o₂ (Or.inl h) r
  · intro newMockRequest c method route l l' hl hp
    simp only [WithRequest]
    rw [applyOptions_perm marshal l l' hl hp]

/-- C4 at concrete inputs: a status and a header commute on a request with
every field set, and three options that write a status and two
distinct header names can be passed in reverse order. -/
theorem options_order_insensitive_witness :
    ExpectHeader "X-Id" ["7"] (ReturnStatus 404 sampleRequest)
        = ReturnStatus 404 (ExpectHeader "X-Id" ["7"] sampleRequest)
      ∧ WithRequest sampleNewMockRequest (New 0) "GET" "/users"
          [ReturnStatus 404, ExpectHeader "X-Id" ["7"], ExpectHeader "Accept" ["text/plain"]]
        = WithRequest sampleNewMockRequest (New 0) "GET" "/users"
          [ExpectHeader "Accept" ["text/plain"], ExpectHeader "X-Id" ["7"], ReturnStatus 404] :=
  ⟨(options_order_insensitive sampleMarshal).1 (OptionCall.returnStatus 404)
      (OptionCall.expectHeader "X-Id" ["7"]) sampleRequest (by decide),
    (options_order_insensitive sampleMarshal).2 sampleNewMockRequest (New 0) "GET" "/users"
      [OptionCall.returnStatus 404, OptionCall.expectHeader "X-Id" ["7"],
        OptionCall.expectHeader "Accept" ["text/plain"]]
      [OptionCall.expectHeader "Accept" ["text/plain"], OptionCall.expectHeader "X-Id" ["7"],
        OptionCall.returnStatus 404]
      (by decide) (by decide)⟩

/-! ## The exhaustion check -/

theorem errorf_ne_self (t : TestingT) (msg : String) : t.Errorf msg ≠ t := by
  intro h
  have := congrArg (fun x => x.output.length) h
  simp [TestingT.Errorf] at this

theorem assertExpectations_changes_t_iff (c : Client) (t : TestingT) :
    (AssertExpectations c t).2 ≠ t
      ↔ c.transport.index < (c.transport.requests.length : Int) := by
  by_cases h : c.transport.index < (c.transport.requests.length : Int)
  · simp [AssertExpectations, h, errorf_ne_self]
  · simp [AssertExpectations, h]

/-- C5: `AssertExpectations` reports a failure if and only if
`index < len(requests)`: it reports one whenever an expectation is unconsumed,
and reports nothing when the cursor equals the queue length or the queue is
empty (the cursor being non-negative). -/
theorem assertExpectations_fails_iff (c : Client) (t : TestingT) :
    ((AssertExpectations c t).2 ≠ t
        ↔ c.transport.index < (c.transport.requests.length : Int))
      ∧ (c.transport.index < (c.transport.requests.length : Int) →
          (AssertExpectations c t).2 = t.Errorf "httpmock should have more requests"
            ∧ (AssertExpectations c t).2.failed = true)
      ∧ (c.transport.index = (c.transport.requests.length : Int) →
          (AssertExpectations c t).2 = t)
      ∧ (c.transport.requests = [] → 0 ≤ c.transport.index →
          (AssertExpectations c t).2 = t) := by
  refine ⟨assertExpectations_changes_t_iff c t, ?_, ?_, ?_⟩
  · intro h
    simp [AssertExpectations, h, TestingT.Errorf]
  · intro h
    simp [AssertExpectations, h]
  · intro h0 h1
    simp [AssertExpectations, h0, not_lt.mpr h1]

/-- C5 at concrete inputs: a failure with one expectation left, none on a
client that was never populated. -/
theorem assertExpectations_fails_iff_witness :
    (AssertExpectations sampleClient sampleT).2
        = { failed := true, output := ["httpmock should have more requests"] }
      ∧ (AssertExpectations (New 0) sampleT).2 = sampleT :=
  ⟨((assertExpectations_fails_iff sampleClient sampleT).2.1 (by decide)).1,
    (assertExpectations_fails_iff (New 0) sampleT).2.2.2 rfl (by decide)⟩

/-- C6, as stated, fails: with three registered expectations the check logs
the same single message whether one expectation is unconsumed (cursor 2) or
three are (cursor 0), so the report does not identify the count. -/
theorem report_same_for_one_and_three_unconsumed :
    unconsumed sampleClient = 1
      ∧ unconsumed sampleClientFresh = 3
      ∧ (AssertExpectations sampleClient sampleT).2
        = (AssertExpectations sampleClientFresh sampleT).2
      ∧ reported sampleT (AssertExpectations sampleClient sampleT).2
        = ["httpmock should have more requests"] := by
  decide

/-- C6, amended: when the cursor is below the queue length, the check marks
the test as failed and logs exactly one message, the fixed text
`httpmock should have more requests`, whatever the number of unconsumed
expectations is. -/
theorem report_is_fixed_message (c : Client) (t : TestingT)
    (h : c.transport.index < (c.transport.requests.length : Int)) :
    0 < unconsumed c
      ∧ (AssertExpectations c t).2.failed = true
      ∧ reported t (AssertExpectations c t).2 = ["httpmock should have more requests"] := by
  refine ⟨?_, ?_, ?_⟩
  · unfold unconsumed
    omega
  · simp [AssertExpectations, h, TestingT.Errorf]
  · simp [AssertExpectations, h, TestingT.Errorf, reported]

/-- C6, amended, at three registered expectations and cursor 2. -/
theorem report_is_fixed_message_witness :
    sampleClient.transport.index < (sampleClient.transport.requests.length : Int)
      ∧ 0 < unconsumed sampleClient
      ∧ (AssertExpectations sampleClient sampleT).2.failed = true
      ∧ reported sampleT (AssertExpectations sampleClient sampleT).2
        = ["httpmock should have more requests"] :=
  ⟨by decide, report_is_fixed_message sampleClient sampleT (by decide)⟩

/-- C7: `AssertExpectations` leaves the queue items and the cursor unchanged,
and after any number of calls in a row the next call again leaves the client
as it was and logs the same messages as the first call. -/
theorem assertExpectations_pure_idempotent (c : Client) (t : TestingT) (n : Nat) :
    (AssertExpectations c t).1 = c
      ∧ (assertRepeatedly n c t).1 = c
      ∧ (AssertExpectations (assertRepeatedly n c t).1 (assertRepeatedly n c t).2).1 = c
      ∧ reported (assertRepeatedly n c t).2
          (AssertExpectations (assertRepeatedly n c t).1 (assertRepeatedly n c t).2).2
        = reported t (AssertExpectations c t).2 := by
  have h1 : ∀ (c : Client) (t : TestingT), (AssertExpectations c t).1 = c := by
    intro c t
    unfold AssertExpectations
    split <;> rfl
  have hn : ∀ (n : Nat) (t : TestingT), (assertRepeatedly n c t).1 = c := by
    intro n
    induction n with
    | zero => intro t; rfl
    | succ k ih =>
      intro t
      simp only [assertRepeatedly, h1]
      exact ih _
  have hr : ∀ t₁ t₂ : TestingT,
      reported t₁ (AssertExpectations c t₁).2 = reported t₂ (AssertExpectations c t₂).2 := by
    intro t₁ t₂
    unfold AssertExpectations
    split <;> simp [reported, TestingT.Errorf]
  refine ⟨h1 c t, hn n t, ?_, ?_⟩
  · rw [h1]
    exact hn n t
  · rw [hn n t]
    exact hr _ _

/-! ## Chains of registrations -/

theorem registerAll_requests (newMockRequest : String → String → request)
    (calls : List Registration) (c : Client) :
    (registerAll newMockRequest c calls).transport.requests
      = c.transport.requests
        ++ calls.map (fun call =>
            call.options.foldl (fun r option => option r)
              (newMockRequest call.method call.route)) := by
  induction calls generalizing c with
  | nil => simp [registerAll]
  | cons call rest ih =>
    simp [registerAll, ih, WithRequest, applyOptions_eq_foldl]

theorem registerAll_index (newMockRequest : String → String → request)
    (calls : List Registration) (c : Client) :
    (registerAll newMockRequest c calls).transport.index = c.transport.index := by
  induction calls generalizing c with
  | nil => rfl
  | cons call rest ih =>
    simp [registerAll, ih, WithRequest]

/-- C8: after a chain of `k` `WithRequest` calls on the client returned by
`New`, the queue has length exactly `k` and its `i`-th item is the expectation
built from the method, route and options of the `i`-th call. -/
theorem registration_keeps_call_order (newMockRequest : String → String → request)
    (t : Nat) (calls : List Registration) :
    (registerAll newMockRequest (New t) calls).transport.requests.length = calls.length
      ∧ ∀ (i : Nat) (call : Registration), calls[i]? = some call →
          (registerAll newMockRequest (New t) calls).transport.requests[i]?
            = some (call.options.foldl (fun r option => option r)
                (newMockRequest call.method call.route)) := by
  have h := registerAll_requests newMockRequest calls (New t)
  simp only [New, List.nil_append] at h
  simp only [New]
  rw [h]
  refine ⟨by simp, ?_⟩
  intro i call hi
  simp [List.getElem?_map, hi]

/-- C8 at two chained calls: the second item is the expectation of the second
call. -/
theorem registration_keeps_call_order_witness :
    (registerAll sampleNewMockRequest (New 0)
        [⟨"GET", "/a", []⟩, ⟨"PUT", "/b", [ReturnStatus 204]⟩]).transport.requests[1]?
      = some (ReturnStatus 204 (sampleNewMockRequest "PUT" "/b")) :=
  (registration_keeps_call_order sampleNewMockRequest 0
    [⟨"GET", "/a", []⟩, ⟨"PUT", "/b", [ReturnStatus 204]⟩]).2 1
    ⟨"PUT", "/b", [ReturnStatus 204]⟩ rfl

/-- C9: `New` returns a client whose queue is empty and whose cursor is 0;
after `n` registrations on it and no intercepted call, `AssertExpectations`
reports a failure exactly when `n >= 1`. -/
theorem new_then_register_fails_iff (newMockRequest : String → String → request)
    (t : Nat) (calls : List Registration) (tt : TestingT) :
    (New t).transport.requests = []
      ∧ (New t).transport.index = 0
      ∧ ((AssertExpectations (registerAll newMockRequest (New t) calls) tt).2 ≠ tt
          ↔ 1 ≤ calls.length)
      ∧ (AssertExpectations (New t) tt).2 = tt := by
  refine ⟨rfl, rfl, ?_, ?_⟩
  · rw [assertExpectations_changes_t_iff, registerAll_index, registerAll_requests]
    simp only [New, List.nil_append, List.length_map]
    omega
  · simp [AssertExpectations, New]

/-- C9 at concrete inputs: no failure on the client from `New`, a failure
after one registration. -/
theorem new_then_register_fails_iff_witness :
    (AssertExpectations (New 0) sampleT).2 = sampleT
      ∧ (AssertExpectations
          (registerAll sampleNewMockRequest (New 0) [⟨"GET", "/a", []⟩]) sampleT).2
        ≠ sampleT :=
  ⟨(new_then_register_fails_iff sampleNewMockRequest 0 [] sampleT).2.2.2,
    (new_then_register_fails_iff sampleNewMockRequest 0 [⟨"GET", "/a", []⟩]
      sampleT).2.2.1.mpr (by decide)⟩

/-! ## The queue invariant -/

/-- C10: the invariant `0 <= cursor <= len(items)` holds in the state produced
by `New` and is preserved by every `WithRequest` call and by every
`AssertExpectations` call. -/
theorem queueInvariant_preserved :
    (∀ t : Nat, queueInvariant (New t))
      ∧ (∀ (newMockRequest : String → String → request) (c : Client)
          (method route : String) (options : List CallOption),
          queueInvariant c →
            queueInvariant (WithRequest newMockRequest c method route options))
      ∧ (∀ (c : Client) (t : TestingT),
          queueInvariant c → queueInvariant (AssertExpectations c t).1) := by
  refine ⟨?_, ?_, ?_⟩
  · intro t
    simp [queueInvariant, New]
  · intro newMockRequest c method route options h
    unfold queueInvariant at h ⊢
    simp only [WithRequest, List.length_append, List.length_singleton]
    omega
  · intro c t h
    unfold AssertExpectations
    split <;> exact h

/-- C10 at concrete inputs: the invariant holds after `New`, after a
registration on a client with cursor 2 of 3, and after the check on it. -/
theorem queueInvariant_preserved_witness :
    queueInvariant (New 0)
      ∧ queueInvariant sampleClient
      ∧ queueInvariant
          (WithRequest sampleNewMockRequest sampleClient "GET" "/d" [ReturnStatus 204])
      ∧ queueInvariant (AssertExpectations sampleClient sampleT).1 :=
  ⟨queueInvariant_preserved.1 0, by decide,
    queueInvariant_preserved.2.1 sampleNewMockRequest sampleClient "GET" "/d"
      [ReturnStatus 204] (by decide),
    queueInvariant_preserved.2.2 sampleClient sampleT (by decide)⟩

/-! ## Registration never rejects -/

theorem applyOptions_returnError {Obj : Type} (marshal : Obj → Except GoError String)
    (e : Option GoError) (l : List (OptionCall Obj)) (r : request)
    (hall : ∀ o ∈ l, o.field = Field.returnError → o = OptionCall.returnError e)
    (hmem : OptionCall.returnError e ∈ l ∨ r.returnError = e) :
    (applyOptions (l.map (OptionCall.build marshal)) r).returnError = e := by
  induction l generalizing r with
  | nil => simpa [applyOptions] using hmem
  | cons o rest ih =>
    simp only [List.map_cons, applyOptions]
    refine ih _ (fun o' ho' => hall o' (List.mem_cons_of_mem _ ho')) ?_
    by_cases hf : o.field = Field.returnError
    · right
      rw [hall o (List.mem_cons_self _ _) hf]
      rfl
    · rcases hmem with hmem | hmem
      · rcases List.mem_cons.mp hmem with h | h
        · exact absurd (by rw [← h]; rfl) hf
        · exact Or.inl h
      · right
        rw [← hmem]
        cases o <;> first | rfl | exact absurd rfl hf

theorem applyOptions_returnStatus {Obj : Type} (marshal : Obj → Except GoError String)
    (s : Int) (l : List (OptionCall Obj)) (r : request)
    (hall : ∀ o ∈ l, o.field = Field.returnStatus → o = OptionCall.returnStatus s)
    (hmem : OptionCall.returnStatus s ∈ l ∨ r.returnStatus = s) :
    (applyOptions (l.map (OptionCall.build marshal)) r).returnStatus = s := by
  induction l generalizing r with
  | nil => simpa [applyOptions] using hmem
  | cons o rest ih =>
    simp only [List.map_cons, applyOptions]
    refine ih _ (fun o' ho' => hall o' (List.mem_cons_of_mem _ ho')) ?_
    by_cases hf : o.field = Field.returnStatus
    · right
      rw [hall o (List.mem_cons_self _ _) hf]
      rfl
    · rcases hmem with hmem | hmem
      · rcases List.mem_cons.mp hmem with h | h
        · exact absurd (by rw [← h]; rfl) hf
        · exact Or.inl h
      · right
        rw [← hmem]
        cases o <;> first | rfl | exact absurd rfl hf

theorem applyOptions_returnBody {Obj : Type} (marshal : Obj → Except GoError String)
    (ob : OptionCall Obj) (b : String) (hfield : ob.field = Field.returnBody)
    (hb : ∀ r, (ob.build marshal r).returnBody = b)
    (l : List (OptionCall Obj)) (r : request)
    (hall : ∀ o ∈ l, o.field = Field.returnBody → o = ob)
    (hmem : ob ∈ l ∨ r.returnBody = b) :
    (applyOptions (l.map (OptionCall.build marshal)) r).returnBody = b := by
  induction l generalizing r with
  | nil =>
    rcases hmem with hmem | hmem
    · cases hmem
    · simpa [applyOptions] using hmem
  | cons o rest ih =>
    simp only [List.map_cons, applyOptions]
    refine ih _ (fun o' ho' => hall o' (List.mem_cons_of_mem _ ho')) ?_
    by_cases hf : o.field = Field.returnBody
    · right
      rw [hall o (List.mem_cons_self _ _) hf]
      exact hb r
    · rcases hmem with hmem | hmem
      · rcases List.mem_cons.mp hmem with h | h
        · exact absurd (by rw [← h]; exact hfield) hf
        · exact Or.inl h
      · right
        rw [← hmem]
        cases o <;> first | rfl | exact absurd rfl hf

/-- C11: `WithRequest` appends an expectation for every method, route and
option list; and when the options hold `ReturnError(e)` and `ReturnStatus(s)`
(and a return body, raw or from an object), each the only option for its
field, the appended expectation stores `returnError = e` and
`returnStatus = s` (and the body) together, wherever in the list they stand. -/
theorem registration_never_rejects {Obj : Type}
    (marshal : Obj → Except GoError String)
    (newMockRequest : String → String → request) (c : Client) (method route : String) :
    (∀ options : List CallOption, ∃ req,
        (WithRequest newMockRequest c method route options).transport.requests
          = c.transport.requests ++ [req])
      ∧ (∀ (l : List (OptionCall Obj)) (e : Option GoError) (s : Int),
          OptionCall.returnError e ∈ l → OptionCall.returnStatus s ∈ l →
          (∀ o ∈ l, o.field = Field.returnError → o = OptionCall.returnError e) →
          (∀ o ∈ l, o.field = Field.returnStatus → o = OptionCall.returnStatus s) →
          ∃ req,
            (WithRequest newMockRequest c method route
                (l.map (OptionCall.build marshal))).transport.requests
              = c.transport.requests ++ [req]
            ∧ req.returnError = e ∧ req.returnStatus = s
            ∧ (∀ b, OptionCall.returnBodyRaw b ∈ l →
                (∀ o ∈ l, o.field = Field.returnBody → o = OptionCall.returnBodyRaw b) →
                req.returnBody = b)
            ∧ (∀ object, OptionCall.returnBodyFromObject object ∈ l →
                (∀ o ∈ l, o.field = Field.returnBody →
                  o = OptionCall.returnBodyFromObject object) →
                req.returnBody = (match marshal object with
                  | .ok b => b
                  | .error _ => ""))) := by
  refine ⟨fun options => ⟨_, rfl⟩, ?_⟩
  intro l e s he hs hae has
  refine ⟨_, rfl, ?_, ?_, ?_, ?_⟩
  · exact applyOptions_returnError marshal e l _ hae (Or.inl he)
  · exact applyOptions_returnStatus marshal s l _ has (Or.inl hs)
  · intro b hb hab
    exact applyOptions_returnBody marshal (OptionCall.returnBodyRaw b) b rfl (fun _ => rfl) l _
      hab (Or.inl hb)
  · intro object ho hao
    exact applyOptions_returnBody marshal (OptionCall.returnBodyFromObject object) _ rfl
      (fun _ => rfl) l _ hao (Or.inl ho)

/-- C11 at concrete inputs: an error, a status and a raw body, passed in two
different orders, are stored together. -/
theorem registration_never_rejects_witness :
    (∃ req,
        (WithRequest sampleNewMockRequest (New 0) "GET" "/users"
            [ReturnStatus 500, ReturnBodyRaw "x", ReturnError (some ⟨"boom"⟩)]
          ).transport.requests = [req]
        ∧ req.returnError = some ⟨"boom"⟩ ∧ req.returnStatus = 500
        ∧ req.returnBody = "x")
      ∧ (∃ req,
        (WithRequest sampleNewMockRequest (New 0) "GET" "/users"
            [ReturnError (some ⟨"boom"⟩), ReturnBodyRaw "x", ReturnStatus 500]
          ).transport.requests = [req]
        ∧ req.returnError = some ⟨"boom"⟩ ∧ req.returnStatus = 500
        ∧ req.returnBody = "x") := by
  constructor
  · obtain ⟨req, h, he, hs, hb, _⟩ :=
      (registration_never_rejects sampleMarshal sampleNewMockRequest (New 0) "GET"
        "/users").2
        [OptionCall.returnStatus 500, OptionCall.returnBodyRaw "x",
          OptionCall.returnError (some ⟨"boom"⟩)]
        (some ⟨"boom"⟩) 500 (by decide) (by decide) (by decide) (by decide)
    exact ⟨req, h, he, hs, hb "x" (by decide) (by decide)⟩
  · obtain ⟨req, h, he, hs, hb, _⟩ :=
      (registration_never_rejects sampleMarshal sampleNewMockRequest (New 0) "GET"
        "/users").2
        [OptionCall.returnError (some ⟨"boom"⟩), OptionCall.returnBodyRaw "x",
          OptionCall.returnStatus 500]
        (some ⟨"boom"⟩) 500 (by decide) (by decide) (by decide) (by decide)
    exact ⟨req, h, he, hs, hb "x" (by decide) (by decide)⟩

/-! ## Entries of the header and query-parameter maps -/

theorem getEntry_setEntry_self (m : Option StringsMap) (name : String)
    (values : List String) : getEntry (setEntry m name values) name = some values := by
  cases m <;> simp [getEntry, setEntry]

theorem getEntry_setEntry_of_ne (m : Option StringsMap) (name other : String)
    (values : List String) (h : other ≠ name) :
    getEntry (setEntry m name values) other = getEntry m other := by
  cases m <;> simp [getEntry, setEntry, Finmap.lookup_insert_of_ne _ h]

theorem setEntry_setEntry (m : Option StringsMap) (name : String)
    (v₁ v₂ : List String) :
    setEntry (setEntry m name v₁) name v₂ = setEntry m name v₂ := by
  cases m <;> simp [setEntry]

/-- C12: `ExpectHeader(name, values)` gives a map, also from a nil map, in which
the entry for the verbatim name is `values` and the entry under every other
name is as before; two such options with the same name leave the last value
list, two with distinct names leave both entries in either order. The same
holds for `ExpectQueryParamValues` on `expectedQueryParams`. -/
theorem map_options_keyed_by_name (r : request) (name : String) (values : List String) :
    (getEntry (ExpectHeader name values r).expectedHeaders name = some values
        ∧ (∀ other, other ≠ name →
            getEntry (ExpectHeader name values r).expectedHeaders other
              = getEntry r.expectedHeaders other)
        ∧ (∀ v₁, ExpectHeader name values (ExpectHeader name v₁ r)
            = ExpectHeader name values r)
        ∧ (∀ name₂ v₂, name₂ ≠ name →
            getEntry (ExpectHeader name₂ v₂ (ExpectHeader name values r)).expectedHeaders
                name = some values
              ∧ getEntry
                  (ExpectHeader name₂ v₂ (ExpectHeader name values r)).expectedHeaders
                  name₂ = some v₂
              ∧ ExpectHeader name₂ v₂ (ExpectHeader name values r)
                = ExpectHeader name values (ExpectHeader name₂ v₂ r)))
      ∧ (getEntry (ExpectQueryParamValues name values r).expectedQueryParams name
          = some values
        ∧ (∀ other, other ≠ name →
            getEntry (ExpectQueryParamValues name values r).expectedQueryParams other
              = getEntry r.expectedQueryParams other)
        ∧ (∀ v₁, ExpectQueryParamValues name values (ExpectQueryParamValues name v₁ r)
            = ExpectQueryParamValues name values r)
        ∧ (∀ name₂ v₂, name₂ ≠ name →
            getEntry
                (ExpectQueryParamValues name₂ v₂
                  (ExpectQueryParamValues name values r)).expectedQueryParams
                name = some values
              ∧ getEntry
                  (ExpectQueryParamValues name₂ v₂
                    (ExpectQueryParamValues name values r)).expectedQueryParams
                  name₂ = some v₂
              ∧ ExpectQueryParamValues name₂ v₂ (ExpectQueryParamValues name values r)
                = ExpectQueryParamValues name values
                    (ExpectQueryParamValues name₂ v₂ r))) := by
  refine ⟨⟨?_, ?_, ?_, ?_⟩, ⟨?_, ?_, ?_, ?_⟩⟩
  · exact getEntry_setEntry_self _ _ _
  · intro other h
    exact getEntry_setEntry_of_ne _ _ _ _ h
  · intro v₁
    simp [ExpectHeader, setEntry_setEntry]
  · intro name₂ v₂ h
    refine ⟨?_, ?_, ?_⟩
    · simp only [ExpectHeader]
      rw [getEntry_setEntry_of_ne _ _ _ _ (Ne.symm h), getEntry_setEntry_self]
    · exact getEntry_setEntry_self (ExpectHeader name values r).expectedHeaders name₂ v₂
    · simp [ExpectHeader, setEntry_comm _ _ _ _ _ (Ne.symm h)]
  · exact getEntry_setEntry_self _ _ _
  · intro other h
    exact getEntry_setEntry_of_ne _ _ _ _ h
  · intro v₁
    simp [ExpectQueryParamValues, setEntry_setEntry]
  · intro name₂ v₂ h
    refine ⟨?_, ?_, ?_⟩
    · simp only [ExpectQueryParamValues]
      rw [getEntry_setEntry_of_ne _ _ _ _ (Ne.symm h), getEntry_setEntry_self]
    · exact getEntry_setEntry_self
        (ExpectQueryParamValues name values r).expectedQueryParams name₂ v₂
    · simp [ExpectQueryParamValues, setEntry_comm _ _ _ _ _ (Ne.symm h)]

/-- C12 at concrete inputs, on a fresh request whose header map is nil: the
name is taken verbatim (the entry under another spelling stays absent), and
two distinct names leave both entries. -/
theorem map_options_keyed_by_name_witness :
    getEntry (ExpectHeader "x-id" ["7"] (sampleNewMockRequest "GET" "/")).expectedHeaders
        "x-id" = some ["7"]
      ∧ getEntry
          (ExpectHeader "x-id" ["7"] (sampleNewMockRequest "GET" "/")).expectedHeaders
          "X-Id" = none
      ∧ getEntry
          (ExpectHeader "Accept" ["a", "b"]
            (ExpectHeader "x-id" ["7"] (sampleNewMockRequest "GET" "/"))).expectedHeaders
          "x-id" = some ["7"] :=
  ⟨(map_options_keyed_by_name (sampleNewMockRequest "GET" "/") "x-id" ["7"]).1.1,
    (map_options_keyed_by_name (sampleNewMockRequest "GET" "/") "x-id" ["7"]).1.2.1
      "X-Id" (by decide),
    ((map_options_keyed_by_name (sampleNewMockRequest "GET" "/") "x-id" ["7"]).1.2.2.2
      "Accept" ["a", "b"] (by decide)).1⟩

/-! ## The body from an object -/

/-- C13: when the serialization of the object succeeds with text `s`, applying
`ReturnBodyFromObject` equals applying `ReturnBodyRaw s`; when it fails, the
error is dropped and the result equals applying `ReturnBodyRaw ""`, which
overwrites a body set earlier. -/
theorem returnBodyFromObject_eq_returnBodyRaw {Obj : Type}
    (marshal : Obj → Except GoError String) (object : Obj) (r : request) :
    (∀ s, marshal object = Except.ok s →
        ReturnBodyFromObject marshal object r = ReturnBodyRaw s r
          ∧ (ReturnBodyFromObject marshal object r).returnBody = s)
      ∧ (∀ e, marshal object = Except.error e →
        ReturnBodyFromObject marshal object r = ReturnBodyRaw "" r
          ∧ (∀ earlier,
              (ReturnBodyFromObject marshal object
                (ReturnBodyRaw earlier r)).returnBody = "")) := by
  constructor
  · intro s h
    simp [ReturnBodyFromObject, ReturnBodyRaw, h]
  · intro e h
    simp [ReturnBodyFromObject, ReturnBodyRaw, h]

/-- C13 at concrete inputs: an object that serializes to `\x7b\x7d`, and one whose
serialization fails, registered after a raw body. -/
theorem returnBodyFromObject_eq_returnBodyRaw_witness :
    ReturnBodyFromObject sampleMarshal true sampleRequest
        = ReturnBodyRaw "\x7b\x7d" sampleRequest
      ∧ (ReturnBodyFromObject sampleMarshal false
          (ReturnBodyRaw "earlier" sampleRequest)).returnBody = "" :=
  ⟨((returnBodyFromObject_eq_returnBodyRaw sampleMarshal true sampleRequest).1
      "\x7b\x7d" rfl).1,
    ((returnBodyFromObject_eq_returnBodyRaw sampleMarshal false sampleRequest).2
      ⟨"json: unsupported type"⟩ rfl).2 "earlier"⟩

/-! ## The single-value query parameter -/

/-- C14: `ExpectQueryParam(name, value)` yields the same expectation as
`ExpectQueryParamValues(name, [value])`; the values expected for the name
afterwards are exactly `[value]`, whatever was expected for it before. -/
theorem expectQueryParam_eq_values (r : request) (name value : String) :
    ExpectQueryParam name value r = ExpectQueryParamValues name [value] r
      ∧ getEntry (ExpectQueryParam name value r).expectedQueryParams name = some [value]
      ∧ (∀ old,
          getEntry
              (ExpectQueryParam name value
                (ExpectQueryParamValues name old r)).expectedQueryParams name
            = some [value])
      ∧ (∀ old,
          ExpectQueryParam name value (ExpectQueryParamValues name old r)
            = ExpectQueryParam name value r) := by
  refine ⟨rfl, getEntry_setEntry_self _ _ _, fun old => ?_, fun old => ?_⟩
  · exact getEntry_setEntry_self
      (ExpectQueryParamValues name old r).expectedQueryParams name [value]
  · simp [ExpectQueryParam, ExpectQueryParamValues, setEntry_setEntry]

end httpmock
